import Mathlib

/-!
Verification of the SEO auditor (`audit.py`): link classification,
local link resolution, the internal link graph, orphan analysis,
external-link verification and the issue ledger / scorer.

The embedding is shallow: each Python function of the auditor is
translated into an executable Lean function over explicit state.  The
filesystem is modelled as the list of paths of the regular files on
disk; the network is modelled as an oracle giving the outcome of each
HTTP attempt.  String operations of Python (`str.split`, `str.strip`,
`os.path.join`, `os.path.normpath`, `os.path.dirname`,
`os.path.relpath`) are re-implemented over `List Char` with the same
semantics as CPython `posixpath`.
-/

namespace Audit

/-! ## Character-list string primitives (Python semantics) -/

/-- `pat in s` for Python strings: `pat` occurs as a contiguous substring. -/
def containsSub (pat : List Char) : List Char → Bool
  | [] => pat.isPrefixOf []
  | c :: rest => pat.isPrefixOf (c :: rest) || containsSub pat rest

/-- Does the character list start with the character `c`? -/
def startsWithChar (c : Char) : List Char → Bool
  | [] => false
  | x :: _ => x = c

/-- Does the character list end with the character `c`? -/
def endsWithChar (c : Char) (l : List Char) : Bool := startsWithChar c l.reverse

/-- Full split on a separator character, as Python `str.split(sep)`:
`splitChar '/' "a/b"` gives `["a", "b"]`, and separators at the ends
produce empty components. -/
def splitChar (sep : Char) : List Char → List (List Char)
  | [] => [[]]
  | c :: rest =>
    match splitChar sep rest with
    | [] => [[c]]
    | h :: t => if c = sep then [] :: h :: t else (c :: h) :: t

/-! ## `posixpath` primitives used by the auditor -/

/-- `os.path.join(a, b)` (POSIX): an absolute second component wins;
otherwise a `/` separator is inserted unless `a` is empty or already
ends with `/`. -/
def pjoinL (a b : List Char) : List Char :=
  if startsWithChar '/' b then b
  else if a = [] || endsWithChar '/' a then a ++ b
  else a ++ '/' :: b

/-- One step of `os.path.normpath`'s component loop: drop empty and `.`
components, let `..` cancel a previous real component (except past the
root or past accumulated leading `..`s). `abs` records whether the
whole path started with `/`. -/
def normComp (abs : Bool) (acc : List (List Char)) (comp : List Char) : List (List Char) :=
  if comp = [] ∨ comp = ['.'] then acc
  else if comp ≠ ['.', '.'] ∨ (abs = false ∧ acc = []) ∨ acc.getLast? = some ['.', '.'] then
    acc ++ [comp]
  else if acc ≠ [] then acc.dropLast
  else acc

/-- `os.path.normpath` (POSIX): collapse `//`, `.` and `..` segments.
An empty result is `.`; one or two initial slashes are preserved
(POSIX treats exactly two leading slashes specially). -/
def normpathL (p : List Char) : List Char :=
  if p = [] then ['.']
  else
    let initialSlashes : Nat :=
      if startsWithChar '/' p then
        if (['/', '/']).isPrefixOf p ∧ ¬ (['/', '/', '/']).isPrefixOf p then 2 else 1
      else 0
    let comps := splitChar '/' p
    let newComps := comps.foldl (normComp (initialSlashes ≠ 0)) []
    let path := List.replicate initialSlashes '/' ++ (newComps.intersperse ['/']).flatten
    if path = [] then ['.'] else path

/-- `os.path.dirname` (POSIX): everything up to the last `/`, with
trailing slashes stripped unless the head is all slashes. -/
def dirnameL (p : List Char) : List Char :=
  let head := ((p.reverse.dropWhile (fun c => c ≠ '/')).reverse)
  if head ≠ [] ∧ head.any (fun c => c ≠ '/') then
    (head.reverse.dropWhile (fun c => c = '/')).reverse
  else head

/-- Length of the common prefix of two component lists
(`os.path.commonprefix` on the split components). -/
def commonPrefixLen : List (List Char) → List (List Char) → Nat
  | a :: as, b :: bs => if a = b then commonPrefixLen as bs + 1 else 0
  | _, _ => 0

/-- `os.path.relpath(path, start)` (POSIX) for absolute arguments: the
auditor always passes `root_dir = os.getcwd()`, which is absolute, and
candidate paths built by joining onto it, so `abspath` reduces to
`normpath`. -/
def relpathL (path start : List Char) : List Char :=
  let startList := (splitChar '/' (normpathL start)).filter (fun x => x ≠ [])
  let pathList := (splitChar '/' (normpathL path)).filter (fun x => x ≠ [])
  let i := commonPrefixLen startList pathList
  let rel := List.replicate (startList.length - i) ['.', '.'] ++ pathList.drop i
  if rel = [] then ['.'] else (rel.intersperse ['/']).flatten

/-! ## String-level wrappers -/

/-- Python `s.startswith(t)`. -/
def strStartsWith (s t : String) : Bool := t.data.isPrefixOf s.data

/-- Python `s.endswith(t)`. -/
def strEndsWith (s t : String) : Bool := t.data.isSuffixOf s.data

/-- Python `t in s` (substring containment). -/
def strContains (s t : String) : Bool := containsSub t.data s.data

/-- Python `s.strip()`: remove leading and trailing whitespace. -/
def pstrip (s : String) : String :=
  ⟨((s.data.dropWhile Char.isWhitespace).reverse.dropWhile Char.isWhitespace).reverse⟩

/-- Python `s.lstrip('/')`. -/
def lstripSlash (s : String) : String := ⟨s.data.dropWhile (fun c => c = '/')⟩

/-- `os.path.join` on strings. -/
def osJoin (a b : String) : String := ⟨pjoinL a.data b.data⟩

/-- `os.path.normpath` on strings. -/
def osNormpath (p : String) : String := ⟨normpathL p.data⟩

/-- `os.path.dirname` on strings. -/
def osDirname (p : String) : String := ⟨dirnameL p.data⟩

/-- `os.path.relpath` on strings. -/
def osRelpath (path start : String) : String := ⟨relpathL path.data start.data⟩

/-- A single-quote character, used in the auditor's issue messages. -/
def sq : String := ⟨[Char.ofNat 39]⟩

/-- Wrap a string in single quotes, as the f-strings of `audit.py` do. -/
def quoted (s : String) : String := sq ++ s ++ sq

/-! ## Configuration (`Config` in `audit.py`) -/

/-- The auditor's configuration.  `base_url` is the canonical origin
read from `index.html` (the empty string when none was determined);
`redirects` is the parsed `_redirects` manifest as an association
list; the ignore lists carry the literal defaults of
`Config.__init__`. -/
structure Config where
  base_url : String
  ignore_urls_prefixes : List String
  ignore_urls_domains : List String
  ignore_files : List String
  redirects : List (String × String)
  root_dir : String

/-- Build a `Config` as `Config.__init__` does, with the literal
default ignore lists, the given base URL, site root and parsed
redirect table. -/
def Config.mk0 (base_url root_dir : String) (redirects : List (String × String)) : Config :=
  { base_url := base_url
    ignore_urls_prefixes := ["javascript:", "mailto:", "#", "tel:"]
    ignore_urls_domains := ["cdn-cgi", "google"]
    ignore_files := ["404.html"]
    redirects := redirects
    root_dir := root_dir }

/-- `Config.should_ignore_url`: empty hrefs and scheme prefixes
(`javascript:`, `mailto:`, `#`, `tel:`) are ignored; an href that
looks absolute (contains `://`) is ignored when any denylisted
fragment occurs anywhere in the URL string. -/
def should_ignore_url (cfg : Config) (url : String) : Bool :=
  if url = "" then true
  else if cfg.ignore_urls_prefixes.any (fun p => strStartsWith url p) then true
  else if strContains url "://" then
    cfg.ignore_urls_domains.any (fun d => strContains url d)
  else false

/-- Lower-case hex digit, as the character class `[a-f0-9]` of the
verification-file pattern. -/
def isHexLower (c : Char) : Bool := ('a' ≤ c ∧ c ≤ 'f') ∨ ('0' ≤ c ∧ c ≤ '9')

/-- `re.match(r'google[a-f0-9]+\.html', filename)`: the name starts
with `google`, followed by at least one lower-case hex digit, followed
by `.html` (a prefix match, not anchored at the end).  Because `.` is
not a hex digit, backtracking over the greedy `+` never helps, so the
maximal hex run must be followed by `.html`. -/
def googleVerifMatch (filename : String) : Bool :=
  let cs := filename.data
  if ("google".data).isPrefixOf cs then
    let rest := cs.drop 6
    let run := rest.takeWhile isHexLower
    run ≠ [] ∧ (".html".data).isPrefixOf (rest.drop run.length)
  else false

/-- `Config.should_ignore_file`: names matching the Google
ownership-verification pattern, and names containing any entry of
`ignore_files` (`404.html`). -/
def should_ignore_file (cfg : Config) (filename : String) : Bool :=
  (if strContains filename "google" ∧ strEndsWith filename ".html" then
    googleVerifMatch filename
   else false)
  || cfg.ignore_files.any (fun ig => strContains filename ig)

/-! ## Issue ledger and auditor state (`Auditor.__init__`, `log_issue`) -/

/-- One entry of the issue ledger: severity level, message, and the
point penalty subtracted from the score. -/
structure Issue where
  level : String
  message : String
  penalty : Nat
deriving DecidableEq

/-- The auditor's mutable state.  `internal_links_map` is the
`defaultdict(list)` mapping a resolved target (path relative to the
site root) to the list of source pages, with multiplicity;
`soft_route_sources` and `external_link_sources` are
`defaultdict(set)`; `external_links` is the deduplicated set of
external URLs awaiting verification. -/
structure AuditState where
  score : Int
  issues : List Issue
  internal_links_map : String → List String
  external_links : List String
  soft_route_sources : String → List String
  external_link_sources : String → List String

/-- The freshly constructed auditor: score 100, everything empty. -/
def initState : AuditState :=
  { score := 100
    issues := []
    internal_links_map := fun _ => []
    external_links := []
    soft_route_sources := fun _ => []
    external_link_sources := fun _ => [] }

/-- `Auditor.log_issue`: append the issue and clamp the score at 0
(`self.score = max(0, self.score - penalty)`).  Printing is I/O and is
not modelled. -/
def log_issue (st : AuditState) (level message : String) (penalty : Nat) : AuditState :=
  { st with
    issues := st.issues ++ [⟨level, message, penalty⟩]
    score := max 0 (st.score - (penalty : Int)) }

/-- Python `set.add` on a set modelled as a duplicate-free list. -/
def setAdd (l : List String) (x : String) : List String :=
  if l.contains x then l else l ++ [x]

/-- Point update of a `defaultdict(list)`-style map, appending one
element at one key. -/
def mapAppend (m : String → List String) (k v : String) : String → List String :=
  fun x => if x = k then m x ++ [v] else m x

/-- Point update of a `defaultdict(set)`-style map. -/
def mapSetAdd (m : String → List String) (k v : String) : String → List String :=
  fun x => if x = k then setAdd (m x) v else m x

/-! ## Local link resolution (`Auditor.verify_local_link`) -/

/-- `href.split('?')[0].split('#')[0]`: the prefix of the href before
the first `?` or `#` — the query string and fragment are stripped
before resolution. -/
def cleanHref (href : String) : String :=
  ⟨(href.data.takeWhile (fun c => c ≠ '?')).takeWhile (fun c => c ≠ '#')⟩

/-- The on-disk filesystem, as the list of paths of the regular files;
`os.path.isfile` is membership. -/
def isfile (fs : List String) (p : String) : Bool := fs.contains p

/-- The ordered candidate list of `Auditor.verify_local_link`.  For a
root-relative href the stripped path is rooted at `root_dir`; for a
relative href it is resolved against the directory of the current page
and normalized.  The base order is `path + '.html'`, then
`path/index.html`, then the exact path; when the (cleaned) href
already ends in `.html` the exact path is inserted at the front. -/
def potential_targets (cfg : Config) (href cur : String) : List String :=
  let clean := cleanHref href
  if strStartsWith clean "/" then
    let part := lstripSlash clean
    let base := [osJoin cfg.root_dir (part ++ ".html"),
                 osJoin (osJoin cfg.root_dir part) "index.html",
                 osJoin cfg.root_dir part]
    if strEndsWith part ".html" then osJoin cfg.root_dir part :: base else base
  else
    let currentDir := osDirname (osJoin cfg.root_dir cur)
    let targetAbs := osNormpath (osJoin currentDir clean)
    let base := [targetAbs ++ ".html",
                 osJoin targetAbs "index.html",
                 targetAbs]
    if strEndsWith clean ".html" then targetAbs :: base else base

/-- `Auditor.verify_local_link`: take the first candidate that exists
as a regular file; on success record `(resolvedTarget, sourcePage)` in
the link graph (with multiplicity), on failure log one `ERROR`
dead-link issue with penalty 10.  The function is total: no exception
escapes. -/
def verify_local_link (cfg : Config) (fs : List String) (st : AuditState)
    (href cur : String) : AuditState :=
  match (potential_targets cfg href cur).find? (fun p => isfile fs p) with
  | some p =>
    { st with internal_links_map :=
        mapAppend st.internal_links_map (osRelpath p cfg.root_dir) cur }
  | none =>
    log_issue st "ERROR" ("In " ++ cur ++ ": Dead Link " ++ quoted href) 10

/-! ## Per-anchor link checking (`Auditor.check_links`) -/

/-- One anchor element: its `href` attribute and its `rel` token list. -/
structure Anchor where
  href : String
  rel : List String

/-- The category a raw href falls into, following the branch order of
`Auditor.check_links`. -/
inductive Category where
  | ignored
  | softRoute (token : String)
  | internalAbsolute (localPart : String)
  | external (url : String)
  | internalRelative (href : String)
deriving DecidableEq

/-- The origin-stripped local part of an internal-absolute href:
`href[len(base_url):]`, with a `/` prepended when missing. -/
def localPartOf (cfg : Config) (href : String) : String :=
  let lp : String := ⟨href.data.drop cfg.base_url.data.length⟩
  if strStartsWith lp "/" then lp else "/" ++ lp

/-- Classification of a (stripped) href, mirroring exactly the branch
order of `Auditor.check_links`: the ignore rules run first, then the
soft-route prefix, then the absolute-URL test, inside which a
non-empty `base_url` prefix match makes the link internal-absolute and
anything else external; all remaining hrefs are internal-relative. -/
def classify (cfg : Config) (href : String) : Category :=
  if should_ignore_url cfg href then .ignored
  else if strStartsWith href "/go/" then .softRoute href
  else if strStartsWith href "http://" || strStartsWith href "https://" then
    if cfg.base_url ≠ "" ∧ strStartsWith href cfg.base_url then
      .internalAbsolute (localPartOf cfg href)
    else .external href
  else .internalRelative href

/-- The body of `Auditor.check_links` for one anchor of the page
`cur`: strip the href, skip ignored hrefs, record and police soft
routes, split absolute URLs into internal-absolute (warned and locally
resolved) and external (queued and checked for the `rel` safety
trio), and warn about and resolve internal links. -/
def check_links_anchor (cfg : Config) (fs : List String) (st : AuditState)
    (cur : String) (a : Anchor) : AuditState :=
  let href := pstrip a.href
  if should_ignore_url cfg href then st
  else if strStartsWith href "/go/" then
    let st := { st with soft_route_sources := mapSetAdd st.soft_route_sources href cur }
    if cfg.redirects ≠ [] ∧ (cfg.redirects.lookup href).isNone then
      log_issue st "WARN"
        ("In " ++ cur ++ ": Soft route " ++ quoted href ++ " not found in _redirects.") 5
    else st
  else if strStartsWith href "http://" || strStartsWith href "https://" then
    if cfg.base_url ≠ "" ∧ strStartsWith href cfg.base_url then
      let st := log_issue st "WARN"
        ("In " ++ cur ++ ": Absolute internal link found " ++ quoted href ++
          ". Should be relative/root-relative.") 2
      verify_local_link cfg fs st (localPartOf cfg href) cur
    else
      let st := { st with
        external_links := setAdd st.external_links href
        external_link_sources := mapSetAdd st.external_link_sources href cur }
      let missing := (["nofollow", "noopener", "noreferrer"].filter
        (fun r => ¬ a.rel.contains r))
      if missing ≠ [] then
        log_issue st "WARN"
          ("In " ++ cur ++ ": External link " ++ quoted href ++
            " missing rel attributes: " ++ String.intercalate ", " missing) 2
      else st
  else
    let st :=
      if ¬ strStartsWith href "/" then
        log_issue st "WARN"
          ("In " ++ cur ++ ": Relative link " ++ quoted href ++
            " found. Recommended: " ++ quoted ("/" ++ href)) 2
      else st
    let st :=
      if strEndsWith href ".html" then
        log_issue st "WARN"
          ("In " ++ cur ++ ": Link with .html suffix " ++ quoted href ++
            ". Recommended: Clean URL.") 2
      else st
    verify_local_link cfg fs st href cur

/-! ## Link equity analysis (`Auditor.analyze_link_equity`) -/

/-- The orphan warning logged for a page with zero inbound links. -/
def orphanIssue (file : String) : Issue :=
  ⟨"WARN", "Orphan Page: " ++ file ++ " has 0 inbound links.", 5⟩

/-- `Auditor.analyze_link_equity`, restricted to its state effects:
for every processed file (in iteration order) that is not filtered by
`should_ignore_file`, a zero inbound count logs one orphan `WARN`
issue with penalty 5.  The top-pages ranking only prints and does not
change the state.  There is no exemption for `index.html`: the
`continue` for the root index was removed from the loop. -/
def analyze_link_equity (cfg : Config) (st : AuditState)
    (processed : List String) : AuditState :=
  processed.foldl
    (fun s file =>
      if should_ignore_file cfg file then s
      else if (s.internal_links_map file).length = 0 then
        log_issue s "WARN" ("Orphan Page: " ++ file ++" has 0 inbound links.") 5
      else s)
    st

/-! ## External verification (`Auditor.verify_url`, `check_external_links`) -/

/-- Outcome of a single HTTP attempt: either the server responded with
some status code (any status, including 4xx/5xx), or the request
failed at the transport level with a `requests.RequestException` whose
string form is `msg`. -/
inductive HttpAttempt where
  | status (code : Nat)
  | exn (msg : String)
deriving DecidableEq

/-- Request method of an attempt, used to record the trace of requests
actually issued for one URL. -/
inductive ReqMethod where
  | headReq
  | getReq
deriving DecidableEq

/-- The network oracle for one URL: what a HEAD attempt and what a GET
attempt would each produce. -/
structure UrlWorld where
  headResult : HttpAttempt
  getResult : HttpAttempt

/-- `Auditor.verify_url`, instrumented with the list of requests it
issues.  A HEAD that returns any status is final; only a transport
failure of the HEAD falls through to the single GET fallback; a
transport failure of both returns `(None, str(e2))`. -/
def verify_url (w : UrlWorld) : (Option Nat × Option String) × List ReqMethod :=
  match w.headResult with
  | .status c => ((some c, none), [.headReq])
  | .exn _ =>
    match w.getResult with
    | .status c => ((some c, none), [.headReq, .getReq])
    | .exn m2 => ((none, some m2), [.headReq, .getReq])

/-- The fold of one verification result into the ledger, from the loop
body of `Auditor.check_external_links`: `if code and code >= 400`
(Python truthiness on the optional status), `elif error` (Python
truthiness on the optional message string). -/
def process_external_result (st : AuditState) (url : String)
    (code : Option Nat) (error : Option String) : AuditState :=
  if code.getD 0 ≠ 0 ∧ code.getD 0 ≥ 400 then
    log_issue st "ERROR"
      ("External Dead Link " ++ quoted url ++ " (Status: " ++ toString (code.getD 0) ++ ")") 5
  else if error.getD "" ≠ "" then
    log_issue st "ERROR"
      ("External Link Error " ++ quoted url ++ ": " ++ error.getD "") 5
  else st

/-- Verification of one external URL followed by the ledger fold. -/
def check_external_one (st : AuditState) (url : String) (w : UrlWorld) : AuditState :=
  let r := (verify_url w).1
  process_external_result st url r.1 r.2

/-! ## Spec-side definitions (for refinement statements) -/

/-- The candidate list exactly as the specification words it: strip
query and fragment, root the path (at the site root, or at the current
page's directory with normalization), then list the exact path first
when the cleaned href already ends in `.html`, then `path + ".html"`,
then `path/index.html`, then the exact path. -/
def spec_candidates (cfg : Config) (href cur : String) : List String :=
  let clean := cleanHref href
  let path :=
    if strStartsWith clean "/" then osJoin cfg.root_dir (lstripSlash clean)
    else osNormpath (osJoin (osDirname (osJoin cfg.root_dir cur)) clean)
  (if strEndsWith clean ".html" then [path] else []) ++
    [path ++ ".html", osJoin path "index.html", path]

/-- Resolution as the specification words it: the first candidate of
the spec-side list that exists as a regular file is recorded in the
link graph; otherwise one dead-link `ERROR` with penalty 10. -/
def spec_resolve (cfg : Config) (fs : List String) (st : AuditState)
    (href cur : String) : AuditState :=
  match (spec_candidates cfg href cur).find? (fun p => isfile fs p) with
  | some p =>
    { st with internal_links_map :=
        mapAppend st.internal_links_map (osRelpath p cfg.root_dir) cur }
  | none =>
    log_issue st "ERROR" ("In " ++ cur ++ ": Dead Link " ++ quoted href) 10

/-- The scorer invariant of the specification: the score equals
`max(0, 100 − Σ penalties)` over the issues logged so far. -/
def ScoreInv (st : AuditState) : Prop :=
  st.score = max 0 (100 - ((st.issues.map fun i => (i.penalty : Int)).sum))

/-- A fixed example configuration: canonical origin
`https://example.com`, site root `/s`, empty redirect table. -/
def cfgEx : Config := Config.mk0 "https://example.com" "/s" []

/-- A fixed example filesystem holding both `post.html` and
`post/index.html` under the site root. -/
def fsEx : List String := ["/s/post.html", "/s/post/index.html"]

/-! ## Helper lemmas -/

theorem max_zero_sub_absorb (A : Int) (p : Nat) :
    max 0 (max 0 A - (p : Int)) = max 0 (A - (p : Int)) := by
  rcases max_cases (0 : Int) A with ⟨h1, h2⟩ | ⟨h1, h2⟩ <;> rw [h1] <;>
    rcases max_cases (0 : Int) (A - (p : Int)) with ⟨h3, h4⟩ | ⟨h3, h4⟩ <;> rw [h3] <;> omega

theorem issues_sum_append (l : List Issue) (i : Issue) :
    (((l ++ [i]).map fun j => (j.penalty : Int)).sum) =
      ((l.map fun j => (j.penalty : Int)).sum) + (i.penalty : Int) := by
  simp

theorem score_nonneg_of_inv {st : AuditState} (h : ScoreInv st) : 0 ≤ st.score := by
  rw [h]; exact le_max_left 0 _

theorem penalties_sum_nonneg (l : List Issue) :
    0 ≤ ((l.map fun j => (j.penalty : Int)).sum) := by
  apply List.sum_nonneg
  intro x hx
  obtain ⟨i, _, rfl⟩ := List.mem_map.mp hx
  exact Int.ofNat_nonneg _

/-! ## Claim C4 -/

/-- C4.  At every point of a run the score is the integer
`max(0, 100 − Σ penalties)` over the issues logged so far: the
invariant holds of the fresh auditor, is preserved by `log_issue`, and
under it the score lies in `[0, 100]` and is monotonically
non-increasing as issues are appended. -/
theorem c4_score_invariant (st : AuditState) (level message : String) (penalty : Nat)
    (h : ScoreInv st) :
    ScoreInv initState ∧
    ScoreInv (log_issue st level message penalty) ∧
    (log_issue st level message penalty).score ≤ st.score ∧
    0 ≤ st.score ∧ st.score ≤ 100 := by
  refine ⟨by simp [ScoreInv, initState], ?_, ?_, score_nonneg_of_inv h, ?_⟩
  · unfold ScoreInv log_issue at *
    simp only []
    rw [h, issues_sum_append, max_zero_sub_absorb]
    ring_nf
  · unfold log_issue
    simp only []
    have h0 : 0 ≤ st.score := score_nonneg_of_inv h
    have h1 : st.score - (penalty : Int) ≤ st.score := by omega
    exact max_le h0 h1
  · rw [h]
    have := penalties_sum_nonneg st.issues
    rcases max_cases (0 : Int)
      (100 - ((st.issues.map fun i => (i.penalty : Int)).sum)) with ⟨h1, _⟩ | ⟨h1, _⟩ <;> omega

/-- Witness for C4 at a concrete state: after logging a dead link
(penalty 10) on the fresh auditor, the invariant holds, the score
dropped, and the bounds hold. -/
theorem c4_score_invariant_witness :
    ScoreInv initState ∧
    ScoreInv (log_issue initState "ERROR" "Dead Link" 10) ∧
    (log_issue initState "ERROR" "Dead Link" 10).score ≤ initState.score ∧
    0 ≤ initState.score ∧ initState.score ≤ 100 :=
  c4_score_invariant initState "ERROR" "Dead Link" 10 (by simp [ScoreInv, initState])

/-! ## Claim C2 -/

/-- C2.  When no candidate form of an internal reference exists as a
regular file, resolution produces exactly one `ERROR` dead-link issue
with penalty 10, leaves the link graph (`internal_links_map`) and all
other collections unchanged, and returns normally (the function is
total, so no exception escapes). -/
theorem c2_dead_link (cfg : Config) (fs : List String) (st : AuditState)
    (href cur : String)
    (h : ∀ p ∈ potential_targets cfg href cur, isfile fs p = false) :
    (verify_local_link cfg fs st href cur).issues =
      st.issues ++ [⟨"ERROR", "In " ++ cur ++ ": Dead Link " ++ quoted href, 10⟩] ∧
    (verify_local_link cfg fs st href cur).internal_links_map = st.internal_links_map ∧
    (verify_local_link cfg fs st href cur).external_links = st.external_links ∧
    (verify_local_link cfg fs st href cur).soft_route_sources = st.soft_route_sources ∧
    (verify_local_link cfg fs st href cur).external_link_sources = st.external_link_sources := by
  have hfind : (potential_targets cfg href cur).find? (fun p => isfile fs p) = none := by
    rw [List.find?_eq_none]
    intro p hp
    simp [h p hp]
  unfold verify_local_link
  rw [hfind]
  simp [log_issue]

/-- Witness for C2: the root-relative href `/b` over a filesystem
holding only `post.html` and `post/index.html` resolves to nothing and
logs the single dead-link error, leaving the link graph unchanged. -/
theorem c2_dead_link_witness :
    (verify_local_link cfgEx fsEx initState "/b" "index.html").issues =
      initState.issues ++
        [⟨"ERROR", "In " ++ "index.html" ++ ": Dead Link " ++ quoted "/b", 10⟩] ∧
    (verify_local_link cfgEx fsEx initState "/b" "index.html").internal_links_map =
      initState.internal_links_map ∧
    (verify_local_link cfgEx fsEx initState "/b" "index.html").external_links =
      initState.external_links ∧
    (verify_local_link cfgEx fsEx initState "/b" "index.html").soft_route_sources =
      initState.soft_route_sources ∧
    (verify_local_link cfgEx fsEx initState "/b" "index.html").external_link_sources =
      initState.external_link_sources :=
  c2_dead_link cfgEx fsEx initState "/b" "index.html" (by decide)

/-! ## Claim C10 -/

/-- C10.  Every successful resolution appends the source page to the
resolved target's source list without de-duplication: `k` resolving
references of the same href from the same source page contribute `k`
entries at the resolved target, the inbound count grows by exactly
`k`, other targets are untouched, and no issue is logged. -/
theorem c10_multiplicity (cfg : Config) (fs : List String) (st : AuditState)
    (href cur p : String)
    (h : (potential_targets cfg href cur).find? (fun q => isfile fs q) = some p)
    (k : Nat) :
    ((fun s => verify_local_link cfg fs s href cur)^[k] st).internal_links_map
        (osRelpath p cfg.root_dir) =
      st.internal_links_map (osRelpath p cfg.root_dir) ++ List.replicate k cur ∧
    (((fun s => verify_local_link cfg fs s href cur)^[k] st).internal_links_map
        (osRelpath p cfg.root_dir)).length =
      (st.internal_links_map (osRelpath p cfg.root_dir)).length + k ∧
    (∀ x, x ≠ osRelpath p cfg.root_dir →
      ((fun s => verify_local_link cfg fs s href cur)^[k] st).internal_links_map x =
        st.internal_links_map x) ∧
    ((fun s => verify_local_link cfg fs s href cur)^[k] st).issues = st.issues := by
  induction k with
  | zero => simp
  | succ n ih =>
    obtain ⟨ih1, _, ih3, ih4⟩ := ih
    rw [Function.iterate_succ_apply']
    set st' := (fun s => verify_local_link cfg fs s href cur)^[n] st with hst'
    have hmap : (verify_local_link cfg fs st' href cur).internal_links_map
        (osRelpath p cfg.root_dir) =
        st.internal_links_map (osRelpath p cfg.root_dir) ++ List.replicate (n + 1) cur := by
      unfold verify_local_link
      rw [h]
      simp only [mapAppend, if_pos rfl]
      rw [ih1, List.replicate_succ' n cur, List.append_assoc]
      simp
    refine ⟨hmap, ?_, ?_, ?_⟩
    · rw [hmap]
      simp
    · intro x hx
      show (verify_local_link cfg fs st' href cur).internal_links_map x = _
      unfold verify_local_link
      rw [h]
      simp only [mapAppend, if_neg hx]
      exact ih3 x hx
    · show (verify_local_link cfg fs st' href cur).issues = _
      unfold verify_local_link
      rw [h]
      exact ih4

/-- Witness for C10: resolving `/post` twice from `index.html` over
the example filesystem records `index.html` twice under `post.html`,
so the inbound count is 2. -/
theorem c10_multiplicity_witness :
    ((fun s => verify_local_link cfgEx fsEx s "/post" "index.html")^[2]
        initState).internal_links_map (osRelpath "/s/post.html" cfgEx.root_dir) =
      initState.internal_links_map (osRelpath "/s/post.html" cfgEx.root_dir) ++
        List.replicate 2 "index.html" ∧
    (((fun s => verify_local_link cfgEx fsEx s "/post" "index.html")^[2]
        initState).internal_links_map (osRelpath "/s/post.html" cfgEx.root_dir)).length =
      (initState.internal_links_map (osRelpath "/s/post.html" cfgEx.root_dir)).length + 2 ∧
    (∀ x, x ≠ osRelpath "/s/post.html" cfgEx.root_dir →
      ((fun s => verify_local_link cfgEx fsEx s "/post" "index.html")^[2]
          initState).internal_links_map x = initState.internal_links_map x) ∧
    ((fun s => verify_local_link cfgEx fsEx s "/post" "index.html")^[2]
        initState).issues = initState.issues :=
  c10_multiplicity cfgEx fsEx initState "/post" "index.html" "/s/post.html" (by decide) 2

/-! ## Claim C5 -/

/-- C5.  Per-URL verification issues the HEAD request first and at
most two requests in total; a HEAD that returns any HTTP status
(including 4xx/5xx) is final with that status as the result; and the
fallback GET is issued exactly when the HEAD fails at the transport
level.  Deduplication of the URL set means a URL queued twice is
queued once, so these are all the requests for a URL within a run. -/
theorem c5_head_then_get (w : UrlWorld) :
    (verify_url w).2.length ≤ 2 ∧
    (verify_url w).2.head? = some .headReq ∧
    (∀ c, w.headResult = .status c →
      (verify_url w).2 = [.headReq] ∧ (verify_url w).1 = (some c, none)) ∧
    ((verify_url w).2.contains .getReq = true ↔ ∃ m, w.headResult = .exn m) ∧
    (∀ l u, setAdd (setAdd l u) u = setAdd l u) := by
  refine ⟨?_, ?_, ?_, ?_, ?_⟩
  · cases hw : w.headResult <;> cases hg : w.getResult <;> simp [verify_url, hw, hg]
  · cases hw : w.headResult <;> cases hg : w.getResult <;> simp [verify_url, hw, hg]
  · intro c hc
    cases hg : w.getResult <;> simp [verify_url, hc, hg]
  · cases hw : w.headResult <;> cases hg : w.getResult <;>
      simp [verify_url, hw, hg, List.contains]
  · intro l u
    by_cases h : u ∈ l
    · simp [setAdd, h]
    · simp [setAdd, h]

/-- Witness for C5: a HEAD answered with status 404 is final — the
trace is the single HEAD request and the result carries the 404. -/
theorem c5_head_then_get_witness :
    (verify_url ⟨.status 404, .exn "refused"⟩).2 = [.headReq] ∧
    (verify_url ⟨.status 404, .exn "refused"⟩).1 = (some 404, none) :=
  (c5_head_then_get ⟨.status 404, .exn "refused"⟩).2.2.1 404 rfl

/-! ## Claim C6 -/

/-- Counterexample for C6: a URL whose HEAD and GET both fail at the
transport level, the final exception stringifying to the empty string,
produces no issue at all — the ledger fold tests the truthiness of the
message (`elif error:`), so the claimed single `ERROR` issue with
penalty 5 is not logged. -/
theorem c6_counterexample :
    (check_external_one initState "https://x.example" ⟨.exn "boom", .exn ""⟩).issues = [] ∧
    check_external_one initState "https://x.example" ⟨.exn "boom", .exn ""⟩ = initState := by
  constructor <;> rfl

/-- C6 (amended).  For each verified external URL: a response status
below 400 (from HEAD, or from GET after a HEAD transport failure)
produces no issue and leaves the state unchanged; a status of 400 or
more produces exactly one `ERROR` issue with penalty 5; a transport
failure of both attempts produces exactly one `ERROR` issue with
penalty 5 provided the reported error message is non-empty, while an
empty error message produces no issue. -/
theorem c6_fold (st : AuditState) (url : String) (w : UrlWorld) :
    (∀ c, (verify_url w).1.1 = some c → c < 400 →
      check_external_one st url w = st) ∧
    (∀ c, (verify_url w).1.1 = some c → 400 ≤ c →
      (check_external_one st url w).issues = st.issues ++
        [⟨"ERROR", "External Dead Link " ++ quoted url ++
          " (Status: " ++ toString c ++ ")", 5⟩]) ∧
    (∀ m, (verify_url w).1 = (none, some m) → m ≠ "" →
      (check_external_one st url w).issues = st.issues ++
        [⟨"ERROR", "External Link Error " ++ quoted url ++ ": " ++ m, 5⟩]) ∧
    ((verify_url w).1 = (none, some "") → check_external_one st url w = st) := by
  refine ⟨?_, ?_, ?_, ?_⟩
  · intro c hc hlt
    cases hw : w.headResult <;> cases hg : w.getResult <;>
      simp_all [verify_url, check_external_one, process_external_result]
  · intro c hc hge
    have hc0 : c ≠ 0 := by omega
    cases hw : w.headResult <;> cases hg : w.getResult <;>
      simp_all [verify_url, check_external_one, process_external_result, log_issue]
  · intro m hm hne
    cases hw : w.headResult <;> cases hg : w.getResult <;>
      simp_all [verify_url, check_external_one, process_external_result, log_issue]
  · intro hr
    cases hw : w.headResult <;> cases hg : w.getResult <;>
      simp_all [verify_url, check_external_one, process_external_result]

/-- Witness for C6 (amended): a URL whose HEAD returns 404 gets
exactly one external dead-link `ERROR` with penalty 5. -/
theorem c6_fold_witness :
    (check_external_one initState "https://u.example" ⟨.status 404, .exn "x"⟩).issues =
      initState.issues ++
        [⟨"ERROR", "External Dead Link " ++ quoted "https://u.example" ++
          " (Status: " ++ toString 404 ++ ")", 5⟩] :=
  (c6_fold initState "https://u.example" ⟨.status 404, .exn "x"⟩).2.1 404 rfl (by omega)

/-! ## Claim C7 -/

/-- Counterexample for C7: with an empty redirect table (the degraded
state after a parse failure), a soft-route reference `/go/missing`
produces no issue at all — the check is guarded by the truthiness of
the table (`if self.config.redirects and ...`), so the claimed `WARN`
with penalty 5 is not logged even though the token is absent. -/
theorem c7_counterexample :
    (check_links_anchor (Config.mk0 "https://example.com" "/s" []) [] initState
      "index.html" ⟨"/go/missing", []⟩).issues = [] ∧
    (check_links_anchor (Config.mk0 "https://example.com" "/s" []) [] initState
      "index.html" ⟨"/go/missing", []⟩).soft_route_sources "/go/missing" =
      ["index.html"] := by
  constructor <;> rfl

/-- C7 (amended).  For a non-ignored soft-route reference (prefix
`/go/`): when the redirect table is non-empty and the token is absent,
exactly one `WARN` issue with penalty 5 is logged; when the table is
empty — e.g. degraded after a parse failure — the check is skipped and
no issue is logged; a present token logs no issue either.  In every
case the reference is recorded in `soft_route_sources`. -/
theorem c7_soft_route (cfg : Config) (fs : List String) (st : AuditState)
    (cur : String) (a : Anchor)
    (hig : should_ignore_url cfg (pstrip a.href) = false)
    (hgo : strStartsWith (pstrip a.href) "/go/" = true) :
    (cfg.redirects ≠ [] → (cfg.redirects.lookup (pstrip a.href)) = none →
      (check_links_anchor cfg fs st cur a).issues = st.issues ++
        [⟨"WARN", "In " ++ cur ++ ": Soft route " ++ quoted (pstrip a.href) ++
          " not found in _redirects.", 5⟩]) ∧
    (cfg.redirects = [] → (check_links_anchor cfg fs st cur a).issues = st.issues) ∧
    ((cfg.redirects.lookup (pstrip a.href)).isSome →
      (check_links_anchor cfg fs st cur a).issues = st.issues) ∧
    (check_links_anchor cfg fs st cur a).soft_route_sources =
      mapSetAdd st.soft_route_sources (pstrip a.href) cur := by
  unfold check_links_anchor
  simp only [hig, hgo, Bool.false_eq_true, if_false, if_true]
  by_cases hr : cfg.redirects ≠ [] ∧ (cfg.redirects.lookup (pstrip a.href)).isNone = true
  · rw [if_pos hr]
    refine ⟨fun _ _ => by simp [log_issue], fun he => absurd he hr.1, ?_, by simp [log_issue]⟩
    intro hsome
    rw [Option.isNone_iff_eq_none] at hr
    simp [hr.2] at hsome
  · rw [if_neg hr]
    refine ⟨?_, fun _ => rfl, fun _ => rfl, rfl⟩
    intro hne hnone
    exact absurd ⟨hne, Option.isNone_iff_eq_none.mpr hnone⟩ hr

/-- Witness for C7 (amended): with a non-empty redirect table lacking
`/go/missing`, the reference from `index.html` logs the single soft
route `WARN` with penalty 5. -/
theorem c7_soft_route_witness :
    (check_links_anchor (Config.mk0 "https://example.com" "/s" [("/go/x", "https://y")])
        [] initState "index.html" ⟨"/go/missing", []⟩).issues = initState.issues ++
      [⟨"WARN", "In " ++ "index.html" ++ ": Soft route " ++ quoted (pstrip "/go/missing") ++
        " not found in _redirects.", 5⟩] :=
  (c7_soft_route (Config.mk0 "https://example.com" "/s" [("/go/x", "https://y")])
    [] initState "index.html" ⟨"/go/missing", []⟩ (by decide) (by decide)).1
    (by decide) (by decide)

/-! ## Claim C3 -/

/-- Counterexample for C3: the site root `index.html` with zero
recorded inbound links does produce an orphan `WARN` issue with
penalty 5 — the exemption for the root index was removed from
`analyze_link_equity`, so the home page is not exempt. -/
theorem c3_counterexample :
    (analyze_link_equity (Config.mk0 "https://example.com" "/s" []) initState
      ["index.html"]).issues = [orphanIssue "index.html"] := by
  rfl

/-- C3 (amended).  In link-equity analysis, every discovered,
non-ignored page with zero inbound links — the site root `index.html`
included, since it is not exempt — yields exactly one orphan `WARN`
issue with penalty 5, appended in iteration order; pages with inbound
links and ignored filenames yield none, and the link graph itself is
unchanged. -/
theorem c3_orphans (cfg : Config) (st : AuditState) (processed : List String) :
    (analyze_link_equity cfg st processed).issues =
      st.issues ++ ((processed.filter (fun f =>
        !(should_ignore_file cfg f) && (st.internal_links_map f).length == 0)).map
          orphanIssue) ∧
    (analyze_link_equity cfg st processed).internal_links_map =
      st.internal_links_map := by
  induction processed generalizing st with
  | nil => simp [analyze_link_equity]
  | cons f rest ih =>
    have hstep : analyze_link_equity cfg st (f :: rest) =
        analyze_link_equity cfg
          (if should_ignore_file cfg f then st
           else if (st.internal_links_map f).length = 0 then
             log_issue st "WARN" ("Orphan Page: " ++ f ++ " has 0 inbound links.") 5
           else st) rest := rfl
    rw [hstep]
    by_cases hig : should_ignore_file cfg f
    · simp only [if_pos hig]
      obtain ⟨ih1, ih2⟩ := ih st
      refine ⟨?_, ih2⟩
      rw [ih1]
      simp [hig]
    · by_cases hz : (st.internal_links_map f).length = 0
      · simp only [if_neg hig, if_pos hz]
        obtain ⟨ih1, ih2⟩ :=
          ih (log_issue st "WARN" ("Orphan Page: " ++ f ++ " has 0 inbound links.") 5)
        refine ⟨?_, ih2⟩
        rw [ih1]
        simp only [log_issue]
        rw [List.append_assoc]
        congr 1
        rw [List.filter_cons]
        simp [hig, hz, orphanIssue]
      · simp only [if_neg hig, if_neg hz]
        obtain ⟨ih1, ih2⟩ := ih st
        refine ⟨?_, ih2⟩
        rw [ih1]
        rw [List.filter_cons]
        simp [hig, hz]

/-! ## Prefix exclusion lemmas -/

theorem http_data : "http://".data = ['h', 't', 't', 'p', ':', '/', '/'] := rfl

theorem https_data : "https://".data = ['h', 't', 't', 'p', 's', ':', '/', '/'] := rfl

theorem startsWith_http_not_go (s : String) (h : strStartsWith s "http://" = true) :
    strStartsWith s "/go/" = false := by
  unfold strStartsWith at *
  rw [ List.isPrefixOf_iff_prefix] at h
  obtain ⟨t, ht⟩ := h
  rw [← ht, http_data]
  rfl

theorem startsWith_https_not_go (s : String) (h : strStartsWith s "https://" = true) :
    strStartsWith s "/go/" = false := by
  unfold strStartsWith at *
  rw [ List.isPrefixOf_iff_prefix] at h
  obtain ⟨t, ht⟩ := h
  rw [← ht, https_data]
  rfl

theorem startsWith_httpx_not_go (s : String)
    (h : (strStartsWith s "http://" || strStartsWith s "https://") = true) :
    strStartsWith s "/go/" = false := by
  rcases Bool.or_eq_true_iff.mp h with h1 | h1
  · exact startsWith_http_not_go s h1
  · exact startsWith_https_not_go s h1

/-! ## Claim C9 -/

/-- C9.  When no canonical origin was determined and `base_url`
defaulted to the empty string, no absolute http(s) URL is classified
internal-absolute: every non-ignored http(s) href is classified
external and queued in `external_links` for verification — the
internal-absolute branch is guarded by the truthiness of `base_url`,
so the (vacuously true) empty-prefix match never fires. -/
theorem c9_empty_origin (cfg : Config) (fs : List String) (st : AuditState)
    (cur : String) (a : Anchor)
    (hbase : cfg.base_url = "")
    (hig : should_ignore_url cfg (pstrip a.href) = false)
    (hhttp : (strStartsWith (pstrip a.href) "http://" ||
      strStartsWith (pstrip a.href) "https://") = true) :
    classify cfg (pstrip a.href) = .external (pstrip a.href) ∧
    (∀ lp, classify cfg (pstrip a.href) ≠ .internalAbsolute lp) ∧
    (check_links_anchor cfg fs st cur a).external_links =
      setAdd st.external_links (pstrip a.href) ∧
    (check_links_anchor cfg fs st cur a).external_link_sources =
      mapSetAdd st.external_link_sources (pstrip a.href) cur := by
  have hgo : strStartsWith (pstrip a.href) "/go/" = false :=
    startsWith_httpx_not_go _ hhttp
  have hnb : ¬(cfg.base_url ≠ "" ∧ strStartsWith (pstrip a.href) cfg.base_url = true) := by
    intro hcon
    exact hcon.1 hbase
  have hcl : classify cfg (pstrip a.href) = .external (pstrip a.href) := by
    unfold classify
    rw [hig, hgo]
    simp only [Bool.false_eq_true, if_false, hhttp, if_true]
    rw [if_neg hnb]
  refine ⟨hcl, fun lp hcon => by rw [hcl] at hcon; exact Category.noConfusion hcon, ?_, ?_⟩
  · unfold check_links_anchor
    simp only [hig, hgo, hhttp, Bool.false_eq_true, if_false, if_true]
    rw [if_neg hnb]
    split <;> simp [log_issue]
  · unfold check_links_anchor
    simp only [hig, hgo, hhttp, Bool.false_eq_true, if_false, if_true]
    rw [if_neg hnb]
    split <;> simp [log_issue]

/-- Witness for C9: with an empty origin, the href
`https://foo.example/page` is external and is queued. -/
theorem c9_empty_origin_witness :
    classify (Config.mk0 "" "/s" []) (pstrip "https://foo.example/page") =
      .external (pstrip "https://foo.example/page") ∧
    (∀ lp, classify (Config.mk0 "" "/s" []) (pstrip "https://foo.example/page") ≠
      .internalAbsolute lp) ∧
    (check_links_anchor (Config.mk0 "" "/s" []) [] initState "index.html"
        ⟨"https://foo.example/page", ["nofollow", "noopener", "noreferrer"]⟩).external_links =
      setAdd initState.external_links (pstrip "https://foo.example/page") ∧
    (check_links_anchor (Config.mk0 "" "/s" []) [] initState "index.html"
        ⟨"https://foo.example/page", ["nofollow", "noopener", "noreferrer"]⟩).external_link_sources =
      mapSetAdd initState.external_link_sources (pstrip "https://foo.example/page")
        "index.html" :=
  c9_empty_origin (Config.mk0 "" "/s" []) [] initState "index.html"
    ⟨"https://foo.example/page", ["nofollow", "noopener", "noreferrer"]⟩
    rfl (by decide) (by decide)

/-! ## Claim C8 -/

/-- Counterexample for C8: with origin `https://example.com`, the URL
`https://example.com/google-maps-guide` starts with the site origin,
yet it is classified `Ignored`, not `InternalAbsolute` — the denylist
test runs first and matches the fragment `google` in the path, outside
the host. -/
theorem c8_counterexample :
    strStartsWith "https://example.com/google-maps-guide" cfgEx.base_url = true ∧
    classify cfgEx "https://example.com/google-maps-guide" = .ignored := by
  constructor <;> rfl

/-- C8 (amended).  Classification tests the ignore denylist first: an
absolute URL containing a denylisted fragment anywhere in the URL
string (host, path or query alike) is `Ignored` — even when it starts
with the site origin — and an ignored reference leaves the state
untouched; only a URL passing the ignore test is then classified:
internal-absolute when the (non-empty) origin is a prefix, in which
case `check_links_anchor` resolves the origin-stripped suffix locally
through `verify_local_link` (after the absolute-internal-link `WARN`),
and external for every other non-ignored http(s) URL. -/
theorem c8_classify (cfg : Config) (fs : List String) (st : AuditState)
    (cur : String) (a : Anchor) :
    (should_ignore_url cfg (pstrip a.href) = true →
      classify cfg (pstrip a.href) = .ignored ∧
      check_links_anchor cfg fs st cur a = st) ∧
    (∀ d, d ∈ cfg.ignore_urls_domains → strContains (pstrip a.href) "://" = true →
      strContains (pstrip a.href) d = true →
      should_ignore_url cfg (pstrip a.href) = true) ∧
    (should_ignore_url cfg (pstrip a.href) = false →
      (strStartsWith (pstrip a.href) "http://" ||
        strStartsWith (pstrip a.href) "https://") = true →
      cfg.base_url ≠ "" → strStartsWith (pstrip a.href) cfg.base_url = true →
      classify cfg (pstrip a.href) = .internalAbsolute (localPartOf cfg (pstrip a.href)) ∧
      check_links_anchor cfg fs st cur a =
        verify_local_link cfg fs
          (log_issue st "WARN"
            ("In " ++ cur ++ ": Absolute internal link found " ++ quoted (pstrip a.href) ++
              ". Should be relative/root-relative.") 2)
          (localPartOf cfg (pstrip a.href)) cur) ∧
    (should_ignore_url cfg (pstrip a.href) = false →
      (strStartsWith (pstrip a.href) "http://" ||
        strStartsWith (pstrip a.href) "https://") = true →
      ¬(cfg.base_url ≠ "" ∧ strStartsWith (pstrip a.href) cfg.base_url = true) →
      classify cfg (pstrip a.href) = .external (pstrip a.href)) := by
  refine ⟨?_, ?_, ?_, ?_⟩
  · intro hig
    constructor
    · unfold classify
      rw [hig]
      simp
    · unfold check_links_anchor
      simp only [hig, if_true]
  · intro d hd hsch hcont
    unfold should_ignore_url
    by_cases he : pstrip a.href = ""
    · simp [he]
    · rw [if_neg he]
      by_cases hp : cfg.ignore_urls_prefixes.any (fun p => strStartsWith (pstrip a.href) p)
      · simp [hp]
      · simp only [hp, Bool.false_eq_true, if_false, hsch, if_true]
        rw [List.any_eq_true]
        exact ⟨d, hd, hcont⟩
  · intro hig hhttp hb hpre
    have hgo : strStartsWith (pstrip a.href) "/go/" = false :=
      startsWith_httpx_not_go _ hhttp
    constructor
    · unfold classify
      rw [hig, hgo]
      simp only [Bool.false_eq_true, if_false, hhttp, if_true]
      rw [if_pos ⟨hb, hpre⟩]
    · unfold check_links_anchor
      simp only [hig, hgo, hhttp, Bool.false_eq_true, if_false, if_true]
      rw [if_pos ⟨hb, hpre⟩]
  · intro hig hhttp hnb
    have hgo : strStartsWith (pstrip a.href) "/go/" = false :=
      startsWith_httpx_not_go _ hhttp
    unfold classify
    rw [hig, hgo]
    simp only [Bool.false_eq_true, if_false, hhttp, if_true]
    rw [if_neg hnb]

/-- Witness for C8 (amended): with origin `https://example.com`, the
non-ignored URL `https://other.example/page` lacks the origin prefix
and is classified external. -/
theorem c8_classify_witness :
    classify cfgEx (pstrip "https://other.example/page") =
      .external (pstrip "https://other.example/page") :=
  (c8_classify cfgEx [] initState "index.html"
    ⟨"https://other.example/page", []⟩).2.2.2 (by decide) (by decide) (by decide)

/-! ## String lemmas for claim C1 -/

theorem takeWhile_pq_idem (p q : Char → Bool) (l : List Char) :
    (((l.takeWhile p).takeWhile q).takeWhile p).takeWhile q =
      (l.takeWhile p).takeWhile q := by
  induction l with
  | nil => rfl
  | cons c cs ih =>
    by_cases hp : p c <;> by_cases hq : q c <;>
      simp [List.takeWhile_cons, hp, hq, ih]

/-- Stripping query and fragment is idempotent: resolution of an
already-cleaned href builds the same candidates. -/
theorem cleanHref_idem (h : String) : cleanHref (cleanHref h) = cleanHref h := by
  unfold cleanHref
  exact congrArg String.mk (takeWhile_pq_idem _ _ h.data)

theorem pjoinL_append_right (a b s : List Char) (hs : startsWithChar '/' s = false) :
    pjoinL a (b ++ s) = pjoinL a b ++ s := by
  cases b with
  | nil =>
    simp only [List.nil_append]
    unfold pjoinL
    rw [hs]
    simp only [startsWithChar]
    by_cases ha : (a = [] : Bool) || endsWithChar '/' a
    · simp [ha]
    · simp only [Bool.false_eq_true, if_false, ha]
      simp
  | cons c bs =>
    unfold pjoinL
    by_cases hc : c = '/'
    · simp [startsWithChar, hc]
    · simp only [startsWithChar, List.cons_append, hc, decide_False]
      by_cases ha : (a = [] : Bool) || endsWithChar '/' a
      · simp [ha]
      · simp [ha]

theorem html_data : ".html".data = ['.', 'h', 't', 'm', 'l'] := rfl

/-- Dropping the leading slashes (Python `lstrip('/')`) does not
change whether a path ends in `.html`, because `.html` contains no
slash. -/
theorem isSuffixOf_dropWhile_slash (l : List Char) :
    (".html".data).isSuffixOf (l.dropWhile (fun c => c = '/')) =
      (".html".data).isSuffixOf l := by
  induction l with
  | nil => rfl
  | cons c cs ih =>
    by_cases hc : c = '/'
    · rw [List.dropWhile_cons]
      simp only [hc, decide_True, if_true]
      rw [ih]
      rw [Bool.eq_iff_iff]
      rw [List.isSuffixOf_iff_suffix, List.isSuffixOf_iff_suffix]
      rw [html_data, List.suffix_cons_iff]
      constructor
      · exact Or.inr
      · rintro (h | h)
        · exfalso
          simp only [List.cons.injEq] at h
          exact absurd h.1 (by decide)
        · exact h
    · rw [List.dropWhile_cons]
      simp [hc]

theorem strEndsWith_lstripSlash (s : String) :
    strEndsWith (lstripSlash s) ".html" = strEndsWith s ".html" := by
  unfold strEndsWith lstripSlash
  exact isSuffixOf_dropWhile_slash s.data

theorem osJoin_append_html (a b : String) :
    osJoin a (b ++ ".html") = osJoin a b ++ ".html" := by
  unfold osJoin
  apply String.ext
  show pjoinL a.data (b ++ ".html").data = pjoinL a.data b.data ++ ".html".data
  rw [String.data_append]
  exact pjoinL_append_right a.data b.data ".html".data (by decide)

/-! ## Claim C1 -/

/-- C1.  Resolution first strips any query string and fragment from
the href (the candidates of an already-cleaned href are identical),
then builds the ordered candidate list exactly as the specification
words it — the exact path first when the cleaned href already ends in
`.html`, then `path + ".html"`, then `path/index.html`, then the exact
path — and returns the first candidate existing as a regular file
(`verify_local_link` coincides with the spec-side first-match
resolver); in particular the root-relative href `/post`, with both
`post.html` and `post/index.html` on disk, resolves to `post.html`. -/
theorem c1_resolution (cfg : Config) (fs : List String) (st : AuditState)
    (href cur : String) :
    potential_targets cfg href cur = spec_candidates cfg href cur ∧
    potential_targets cfg href cur = potential_targets cfg (cleanHref href) cur ∧
    verify_local_link cfg fs st href cur = spec_resolve cfg fs st href cur ∧
    (verify_local_link cfgEx fsEx initState "/post" "index.html").internal_links_map
      "post.html" = ["index.html"] := by
  have h1 : ∀ cf : Config, ∀ h c : String,
      potential_targets cf h c = spec_candidates cf h c := by
    intro cf h c
    simp only [potential_targets, spec_candidates]
    by_cases hroot : strStartsWith (cleanHref h) "/" = true
    · rw [if_pos hroot, if_pos hroot]
      rw [strEndsWith_lstripSlash, osJoin_append_html]
      by_cases hend : strEndsWith (cleanHref h) ".html" = true
      · rw [if_pos hend, if_pos hend]
        simp
      · rw [if_neg hend, if_neg hend]
        simp
    · rw [if_neg hroot, if_neg hroot]
      by_cases hend : strEndsWith (cleanHref h) ".html" = true
      · rw [if_pos hend, if_pos hend]
        simp
      · rw [if_neg hend, if_neg hend]
        simp
  refine ⟨h1 cfg href cur, ?_, ?_, ?_⟩
  · simp only [potential_targets, cleanHref_idem]
  · unfold verify_local_link spec_resolve
    rw [h1 cfg href cur]
  · rfl

end Audit
